import Mathlib

/-!
Verification of the Mean Trophic Level (MTL) calculator of OpenEBFM
(`src/metrics.py`), a single pure function `calculate_mtl` over a fixed
reference table `TROPHIC_LEVELS`.

Embedding choices:
* catch masses and trophic levels are rationals (`ℚ`); the Python floats in
  play are small decimal literals, and the comparisons in the source
  (`catch <= 0`, `total_catch == 0`) are order comparisons faithfully
  mirrored on `ℚ`;
* a `catch_kg` cell is either a coercible number or a value on which
  `pd.to_numeric(..., errors="coerce")` yields NaN (`Cell.invalid`);
* the input is either a DataFrame-like table (column names plus rows) or a
  non-DataFrame value (`Input.nonDF`);
* the two Python exceptions become the two constructors of `MTLError`, and
  the `logger.warning` side channel becomes an explicit list of emitted
  log lines in the output.
-/

/-- The module-level reference table from `metrics.py`, in source order. -/
def TROPHIC_LEVELS : List (String × ℚ) :=
  [ ("Atlantic cod", 35/10)
  , ("Pacific sardine", 28/10)
  , ("Bluefin tuna", 42/10)
  , ("Anchovy", 27/10)
  , ("Mackerel", 32/10)
  , ("Squid", 30/10)
  , ("Shrimp", 25/10)
  , ("Lobster", 29/10)
  , ("Salmon", 38/10)
  , ("Halibut", 36/10)
  , ("Haddock", 33/10)
  , ("Plaice", 31/10)
  , ("Herring", 29/10)
  , ("Swordfish", 44/10)
  , ("Mahi-mahi", 37/10) ]

/-- A `catch_kg` cell: a numeric (or numerically coercible) value, or a
value on which coercion fails and yields NaN. -/
inductive Cell where
  | num (q : ℚ)
  | invalid
deriving DecidableEq, Repr

/-- Coercion `pd.to_numeric(cell, errors="coerce")` followed by the `pd.isna` test:
`some q` for a coercible value, `none` for NaN. -/
def to_numeric : Cell → Option ℚ
  | .num q => some q
  | .invalid => none

/-- One row of the input DataFrame (the two columns the function reads). -/
structure Row where
  species_name : String
  catch_kg : Cell
deriving DecidableEq, Repr

/-- A DataFrame-like value: its column labels and its rows. -/
structure DataFrame where
  columns : List String
  rows : List Row
deriving DecidableEq, Repr

/-- The argument of `calculate_mtl`: a DataFrame or some non-DataFrame
value (list, dict, ...). -/
inductive Input where
  | df (d : DataFrame)
  | nonDF
deriving DecidableEq, Repr

/-- The two exception kinds raised by `calculate_mtl`:
Python `TypeError` and `ValueError`. -/
inductive MTLError where
  | typeError (msg : String)
  | valueError (msg : String)
deriving DecidableEq, Repr

/-- Message of the `TypeError` for non-DataFrame input. -/
def typeErrMsg : String := "Input must be a pandas DataFrame"

/-- Message of the `ValueError` for a missing required column (the Python
f-string renders the set of required column names). -/
def schemaErrMsg : String :=
  "DataFrame must contain columns \x7bspecies_name, catch_kg\x7d"

/-- Message of the `ValueError` raised when no row contributed catch. -/
def noDataMsg : String :=
  "No valid catch data with known trophic levels. Cannot compute MTL."

/-- The literal leading part of the missing-species warning line. -/
def warnLiteral : String := "Species not found in trophic level dictionary"

/-- Rendering of the Python `set(missing_species)`: the distinct species
names (first-occurrence order stands in for the unordered set). -/
def renderSet (missing : List String) : String :=
  "\x7b" ++ String.intercalate ", " missing.dedup ++ "\x7d"

/-- The full warning line `logger.warning` emits for a non-empty
`missing_species` list. -/
def warnMsg (missing : List String) : String :=
  warnLiteral ++ (": " ++ renderSet missing ++
    ". These species are excluded from MTL calculation.")

/-- The check `required_cols.issubset(catch_df.columns)` from the source. -/
def hasRequiredCols (d : DataFrame) : Prop :=
  "species_name" ∈ d.columns ∧ "catch_kg" ∈ d.columns

instance (d : DataFrame) : Decidable (hasRequiredCols d) :=
  inferInstanceAs (Decidable (_ ∧ _))

/-- Dictionary lookup `TROPHIC_LEVELS[species]` / `species in TROPHIC_LEVELS`
over an association list (first matching key wins, exact string match). -/
def findTLIn (table : List (String × ℚ)) (s : String) : Option ℚ :=
  match table with
  | [] => none
  | p :: rest => if p.1 = s then some p.2 else findTLIn rest s

/-- Lookup in the fixed module-level table. -/
def findTL (s : String) : Option ℚ := findTLIn TROPHIC_LEVELS s

/-- The loop state of `calculate_mtl`: the two accumulators and the
`missing_species` list. -/
structure LoopState where
  total_catch : ℚ
  weighted_sum : ℚ
  missing_species : List String
deriving DecidableEq, Repr

/-- One iteration of the row loop: skip invalid or non-positive catch,
then either accumulate (species known) or record the missing species. -/
def stepRow (table : List (String × ℚ)) (st : LoopState) (r : Row) :
    LoopState :=
  match to_numeric r.catch_kg with
  | none => st
  | some c =>
    if c ≤ 0 then st
    else
      match findTLIn table r.species_name with
      | some tl =>
          { st with
            weighted_sum := st.weighted_sum + tl * c
            total_catch := st.total_catch + c }
      | none =>
          { st with
            missing_species := st.missing_species ++ [r.species_name] }

/-- The whole row loop, started from zeroed accumulators. -/
def runRows (table : List (String × ℚ)) (rows : List Row) : LoopState :=
  rows.foldl (stepRow table) ⟨0, 0, []⟩

instance : DecidableEq (Except MTLError ℚ) := fun a b =>
  match a, b with
  | .ok x, .ok y =>
      if h : x = y then .isTrue (by rw [h])
      else .isFalse (by intro hc; cases hc; exact h rfl)
  | .error x, .error y =>
      if h : x = y then .isTrue (by rw [h])
      else .isFalse (by intro hc; cases hc; exact h rfl)
  | .ok _, .error _ => .isFalse (by intro hc; cases hc)
  | .error _, .ok _ => .isFalse (by intro hc; cases hc)

/-- Result of a call: the returned value or raised exception, plus the
warning lines emitted on the way. -/
structure MTLOutput where
  result : Except MTLError ℚ
  warnings : List String
deriving DecidableEq, Repr

/-- The tail of `calculate_mtl` after the row loop: warn about missing
species, raise on zero total catch, otherwise divide. -/
def finishMTL (st : LoopState) : MTLOutput :=
  let warns := if st.missing_species.isEmpty then [] else [warnMsg st.missing_species]
  if st.total_catch = 0 then ⟨.error (.valueError noDataMsg), warns⟩
  else ⟨.ok (st.weighted_sum / st.total_catch), warns⟩

/-- Function `calculate_mtl`, parameterized by the reference table: type check,
column check, row loop, warning, zero-catch check, division. -/
def calculate_mtl_with (table : List (String × ℚ)) : Input → MTLOutput
  | .nonDF => ⟨.error (.typeError typeErrMsg), []⟩
  | .df d =>
    if hasRequiredCols d then finishMTL (runRows table d.rows)
    else ⟨.error (.valueError schemaErrMsg), []⟩

/-- Function `calculate_mtl` as in the source, over the module-level table. -/
def calculate_mtl (input : Input) : MTLOutput :=
  calculate_mtl_with TROPHIC_LEVELS input

/-- Holds when the row survives the catch filter: its `catch_kg` coerces
and is strictly positive. -/
def validCatch (r : Row) : Prop :=
  match to_numeric r.catch_kg with
  | none => False
  | some q => 0 < q

/-- Holds when the row contributes to the sums: valid positive catch and
a species present in the table. -/
def contributes (table : List (String × ℚ)) (r : Row) : Prop :=
  validCatch r ∧ (findTLIn table r.species_name).isSome

/-- The catch value a surviving row contributes (with `0` as an unused
default for filtered rows). -/
def catchD (r : Row) : ℚ := (to_numeric r.catch_kg).getD 0

/-- The trophic level used for a row (with `0` as an unused default for
species outside the table). -/
def tlD (r : Row) : ℚ := (findTL r.species_name).getD 0

/-- The species names the loop appends to `missing_species`: rows that
pass the catch filter but miss the table, in row order. -/
def unmatchedSpecies (table : List (String × ℚ)) : List Row → List String
  | [] => []
  | r :: rest =>
    match to_numeric r.catch_kg with
    | none => unmatchedSpecies table rest
    | some q =>
      if q ≤ 0 then unmatchedSpecies table rest
      else
        match findTLIn table r.species_name with
        | some _ => unmatchedSpecies table rest
        | none => r.species_name :: unmatchedSpecies table rest

/-- A filtered-out row leaves the loop state unchanged. -/
theorem stepRow_of_not_validCatch (t : List (String × ℚ)) (st : LoopState)
    (r : Row) (h : ¬ validCatch r) : stepRow t st r = st := by
  unfold stepRow
  cases hc : to_numeric r.catch_kg with
  | none => rfl
  | some q =>
    have hq : q ≤ 0 := by
      by_contra hq
      exact h (by simp [validCatch, hc]; exact lt_of_not_le hq)
    simp [hq]

/-- A surviving row with an unmatched species only records the species. -/
theorem stepRow_of_missing (t : List (String × ℚ)) (st : LoopState) (r : Row)
    (q : ℚ) (hc : to_numeric r.catch_kg = some q) (hq : 0 < q)
    (hf : findTLIn t r.species_name = none) :
    stepRow t st r =
      { st with missing_species := st.missing_species ++ [r.species_name] } := by
  unfold stepRow
  simp [hc, hf, not_le.mpr hq]

/-- A surviving row with a matched species accumulates into both sums. -/
theorem stepRow_of_found (t : List (String × ℚ)) (st : LoopState) (r : Row)
    (q tl : ℚ) (hc : to_numeric r.catch_kg = some q) (hq : 0 < q)
    (hf : findTLIn t r.species_name = some tl) :
    stepRow t st r =
      { st with
        weighted_sum := st.weighted_sum + tl * q
        total_catch := st.total_catch + q } := by
  unfold stepRow
  simp [hc, hf, not_le.mpr hq]

/-- The catch filter in terms of the coerced value. -/
theorem validCatch_iff (r : Row) :
    validCatch r ↔ ∃ q, to_numeric r.catch_kg = some q ∧ 0 < q := by
  unfold validCatch
  cases hc : to_numeric r.catch_kg <;> simp

/-- A non-contributing row leaves `total_catch` unchanged. -/
theorem step_total_of_not_contributes (t : List (String × ℚ)) (st : LoopState)
    (r : Row) (h : ¬ contributes t r) :
    (stepRow t st r).total_catch = st.total_catch := by
  by_cases hv : validCatch r
  · obtain ⟨q, hc, hq⟩ := (validCatch_iff r).mp hv
    cases hf : findTLIn t r.species_name with
    | some tl => exact absurd ⟨hv, by simp [hf]⟩ h
    | none => rw [stepRow_of_missing t st r q hc hq hf]
  · rw [stepRow_of_not_validCatch t st r hv]

/-- One loop iteration never decreases `total_catch`. -/
theorem step_total_le (t : List (String × ℚ)) (st : LoopState) (r : Row) :
    st.total_catch ≤ (stepRow t st r).total_catch := by
  by_cases hv : validCatch r
  · obtain ⟨q, hc, hq⟩ := (validCatch_iff r).mp hv
    cases hf : findTLIn t r.species_name with
    | some tl =>
      rw [stepRow_of_found t st r q tl hc hq hf]
      simpa using le_of_lt (by linarith : st.total_catch < st.total_catch + q)
    | none =>
      rw [stepRow_of_missing t st r q hc hq hf]
  · rw [stepRow_of_not_validCatch t st r hv]

/-- The loop never decreases `total_catch`. -/
theorem foldl_total_le (t : List (String × ℚ)) (rows : List Row)
    (st : LoopState) :
    st.total_catch ≤ (List.foldl (stepRow t) st rows).total_catch := by
  induction rows generalizing st with
  | nil => simp
  | cons r rest ih =>
    rw [List.foldl_cons]
    exact le_trans (step_total_le t st r) (ih (stepRow t st r))

/-- Accumulator `total_catch` ends at zero exactly when it started at zero and no row
contributed. -/
theorem foldl_total_eq_zero_iff (t : List (String × ℚ)) (rows : List Row)
    (st : LoopState) (h0 : 0 ≤ st.total_catch) :
    (List.foldl (stepRow t) st rows).total_catch = 0 ↔
      st.total_catch = 0 ∧ ∀ r ∈ rows, ¬ contributes t r := by
  induction rows generalizing st with
  | nil => simp
  | cons r rest ih =>
    rw [List.foldl_cons]
    by_cases hcon : contributes t r
    · obtain ⟨hv, hsome⟩ := hcon
      obtain ⟨q, hc, hq⟩ := (validCatch_iff r).mp hv
      obtain ⟨tl, hf⟩ := Option.isSome_iff_exists.mp hsome
      have hst := stepRow_of_found t st r q tl hc hq hf
      constructor
      · intro hz
        exfalso
        have h1 := foldl_total_le t rest (stepRow t st r)
        rw [hst] at h1 hz
        rw [hz] at h1
        simp at h1
        linarith
      · rintro ⟨-, hall⟩
        exact absurd ⟨hv, hsome⟩ (hall r (by simp))
    · have hts := step_total_of_not_contributes t st r hcon
      rw [ih (stepRow t st r) (by rw [hts]; exact h0), hts]
      simp only [List.mem_cons]
      constructor
      · rintro ⟨h1, h2⟩
        exact ⟨h1, fun x hx => hx.elim (fun he => he ▸ hcon) (h2 x)⟩
      · rintro ⟨h1, h2⟩
        exact ⟨h1, fun x hx => h2 x (Or.inr hx)⟩

/-- Accumulator `missing_species` after the loop: previous contents followed by the
unmatched surviving species, in row order. -/
theorem foldl_missing (t : List (String × ℚ)) (rows : List Row)
    (st : LoopState) :
    (List.foldl (stepRow t) st rows).missing_species =
      st.missing_species ++ unmatchedSpecies t rows := by
  induction rows generalizing st with
  | nil => simp [unmatchedSpecies]
  | cons r rest ih =>
    rw [List.foldl_cons]
    cases hc : to_numeric r.catch_kg with
    | none =>
      have hr : stepRow t st r = st :=
        stepRow_of_not_validCatch t st r (by simp [validCatch, hc])
      rw [hr, ih st]
      simp [unmatchedSpecies, hc]
    | some q =>
      by_cases hq : q ≤ 0
      · have hr : stepRow t st r = st :=
          stepRow_of_not_validCatch t st r
            (by simp only [validCatch, hc]; exact not_lt.mpr hq)
        rw [hr, ih st]
        simp [unmatchedSpecies, hc, hq]
      · have hq' : 0 < q := lt_of_not_le hq
        cases hf : findTLIn t r.species_name with
        | some tl =>
          rw [stepRow_of_found t st r q tl hc hq' hf, ih _]
          simp [unmatchedSpecies, hc, hq, hf]
        | none =>
          rw [stepRow_of_missing t st r q hc hq' hf, ih _]
          simp [unmatchedSpecies, hc, hq, hf]

/-- When every row contributes, the two accumulators are the two sums. -/
theorem foldl_sums (t : List (String × ℚ)) (rows : List Row) (st : LoopState)
    (h : ∀ r ∈ rows, contributes t r) :
    (List.foldl (stepRow t) st rows).total_catch =
        st.total_catch + (rows.map catchD).sum ∧
      (List.foldl (stepRow t) st rows).weighted_sum =
        st.weighted_sum +
          (rows.map
            (fun r => ((findTLIn t r.species_name).getD 0) * catchD r)).sum := by
  induction rows generalizing st with
  | nil => simp
  | cons r rest ih =>
    obtain ⟨hv, hsome⟩ := h r (by simp)
    obtain ⟨q, hc, hq⟩ := (validCatch_iff r).mp hv
    obtain ⟨tl, hf⟩ := Option.isSome_iff_exists.mp hsome
    have hcd : catchD r = q := by simp [catchD, hc]
    have htl : (findTLIn t r.species_name).getD 0 = tl := by simp [hf]
    rw [List.foldl_cons, stepRow_of_found t st r q tl hc hq hf]
    obtain ⟨ih1, ih2⟩ := ih _ (fun x hx => h x (by simp [hx]))
    constructor
    · rw [ih1]; simp [hcd]; ring
    · rw [ih2]; simp [hcd, htl]; ring
/-- Inversion: a returned value comes from a DataFrame with both columns
and a non-zero total, and is the quotient of the two accumulators. -/
theorem calc_ok_inv (t : List (String × ℚ)) (input : Input) (q : ℚ)
    (h : (calculate_mtl_with t input).result = .ok q) :
    ∃ d, input = .df d ∧ hasRequiredCols d ∧
      (runRows t d.rows).total_catch ≠ 0 ∧
      q = (runRows t d.rows).weighted_sum / (runRows t d.rows).total_catch := by
  cases input with
  | nonDF => simp [calculate_mtl_with] at h
  | df d =>
    by_cases hc : hasRequiredCols d
    · refine ⟨d, rfl, hc, ?_⟩
      unfold calculate_mtl_with finishMTL at h
      simp only [hc, if_true] at h
      by_cases ht : (runRows t d.rows).total_catch = 0
      · simp [ht] at h
      · simp only [ht, if_false] at h
        simp at h
        exact ⟨ht, h.symm⟩
    · simp [calculate_mtl_with, hc] at h

/-- A successful association-list lookup returns a pair of the list. -/
theorem findTLIn_mem (t : List (String × ℚ)) (s : String) (q : ℚ)
    (h : findTLIn t s = some q) : (s, q) ∈ t := by
  induction t with
  | nil => simp [findTLIn] at h
  | cons p rest ih =>
    unfold findTLIn at h
    by_cases hp : p.1 = s
    · simp only [hp, if_true, Option.some.injEq] at h
      have hpq : (s, q) = p := by
        rcases p with ⟨ps, pq⟩
        simp at hp h
        simp [hp, h]
      rw [hpq]
      exact List.mem_cons_self p rest
    · simp only [hp, if_false] at h
      exact List.mem_cons_of_mem p (ih h)

/-- Every trophic level of the reference table lies in [2.5, 4.4]. -/
theorem trophic_levels_bounds :
    ∀ p ∈ TROPHIC_LEVELS, 5/2 ≤ p.2 ∧ p.2 ≤ 22/5 := by
  intro p hp
  fin_cases hp <;> norm_num

/-- The loop keeps `weighted_sum` between `lo` and `hi` times
`total_catch`, for a table whose values lie in [lo, hi]. -/
theorem foldl_bounds (t : List (String × ℚ)) (lo hi : ℚ)
    (htab : ∀ p ∈ t, lo ≤ p.2 ∧ p.2 ≤ hi) (rows : List Row) (st : LoopState)
    (h : 0 ≤ st.total_catch ∧ lo * st.total_catch ≤ st.weighted_sum ∧
         st.weighted_sum ≤ hi * st.total_catch) :
    0 ≤ (List.foldl (stepRow t) st rows).total_catch ∧
      lo * (List.foldl (stepRow t) st rows).total_catch ≤
        (List.foldl (stepRow t) st rows).weighted_sum ∧
      (List.foldl (stepRow t) st rows).weighted_sum ≤
        hi * (List.foldl (stepRow t) st rows).total_catch := by
  induction rows generalizing st with
  | nil => simpa using h
  | cons r rest ih =>
    rw [List.foldl_cons]
    refine ih (stepRow t st r) ?_
    by_cases hv : validCatch r
    · obtain ⟨q, hc, hq⟩ := (validCatch_iff r).mp hv
      cases hf : findTLIn t r.species_name with
      | some tl =>
        obtain ⟨hlo, hhi⟩ := htab (r.species_name, tl) (findTLIn_mem t _ tl hf)
        rw [stepRow_of_found t st r q tl hc hq hf]
        obtain ⟨h1, h2, h3⟩ := h
        have hloq : lo * q ≤ tl * q := mul_le_mul_of_nonneg_right hlo (le_of_lt hq)
        have hhiq : tl * q ≤ hi * q := mul_le_mul_of_nonneg_right hhi (le_of_lt hq)
        refine ⟨by simp only []; linarith, by simp only []; nlinarith,
          by simp only []; nlinarith⟩
      | none =>
        rw [stepRow_of_missing t st r q hc hq hf]
        exact h
    · rw [stepRow_of_not_validCatch t st r hv]
      exact h

/-- C7: `calculate_mtl` on rows (Atlantic cod, 100), (Pacific sardine,
200), (Bluefin tuna, 50) returns exactly 3.2 = 16/5 and emits no
warning — the concrete scenario of `test_calculate_mtl_basic`. -/
theorem C7_concrete_scenario_A :
    calculate_mtl (.df ⟨["species_name", "catch_kg"],
      [ ⟨"Atlantic cod", .num 100⟩
      , ⟨"Pacific sardine", .num 200⟩
      , ⟨"Bluefin tuna", .num 50⟩ ]⟩)
      = ⟨.ok (32/10), []⟩ := by
  simp [calculate_mtl, calculate_mtl_with, hasRequiredCols, runRows,
    stepRow, to_numeric, findTLIn, TROPHIC_LEVELS, finishMTL, List.foldl]
  norm_num

/-- C1: on a DataFrame with both columns, at least one row, every catch
positive and coercible, and every species in the table, `calculate_mtl`
returns the catch-weighted mean Σ(tl·catch)/Σ(catch) over the rows. -/
theorem C1_weighted_mean (d : DataFrame) (hcols : hasRequiredCols d)
    (hne : d.rows ≠ [])
    (h : ∀ r ∈ d.rows, validCatch r ∧ (findTL r.species_name).isSome) :
    (calculate_mtl (.df d)).result =
      .ok ((d.rows.map (fun r => tlD r * catchD r)).sum /
        (d.rows.map catchD).sum) := by
  obtain ⟨h1, h2⟩ :=
    foldl_sums TROPHIC_LEVELS d.rows ⟨0, 0, []⟩ (fun r hr => h r hr)
  have hpos : 0 < (d.rows.map catchD).sum := by
    apply List.sum_pos
    · intro x hx
      obtain ⟨r, hr, rfl⟩ := List.mem_map.mp hx
      obtain ⟨q, hc, hq⟩ := (validCatch_iff r).mp (h r hr).1
      simpa [catchD, hc] using hq
    · simpa using hne
  have hT : (runRows TROPHIC_LEVELS d.rows).total_catch =
      (d.rows.map catchD).sum := by
    unfold runRows
    rw [h1]
    simp
  have hW : (runRows TROPHIC_LEVELS d.rows).weighted_sum =
      (d.rows.map (fun r => tlD r * catchD r)).sum := by
    unfold runRows
    rw [h2]
    simp only [tlD, findTL]
    simp
  unfold calculate_mtl calculate_mtl_with finishMTL
  simp only [hcols, if_true]
  rw [hT, hW]
  rw [if_neg (ne_of_gt hpos)]

/-- Witness for C1 at a concrete two-row input. -/
theorem C1_weighted_mean_witness :
    (calculate_mtl (.df ⟨["species_name", "catch_kg"],
      [⟨"Salmon", .num 10⟩, ⟨"Shrimp", .num 30⟩]⟩)).result =
      .ok ((([⟨"Salmon", .num 10⟩, ⟨"Shrimp", .num 30⟩] : List Row).map
            (fun r => tlD r * catchD r)).sum /
        (([⟨"Salmon", .num 10⟩, ⟨"Shrimp", .num 30⟩] : List Row).map
            catchD).sum) :=
  C1_weighted_mean ⟨["species_name", "catch_kg"],
      [⟨"Salmon", .num 10⟩, ⟨"Shrimp", .num 30⟩]⟩
    (by constructor <;> simp)
    (by simp)
    (by
      intro r hr
      fin_cases hr <;>
        exact ⟨by norm_num [validCatch, to_numeric],
          by simp [findTL, findTLIn, TROPHIC_LEVELS]⟩)

/-- C2: with both required columns present, the call fails with the
no-valid-catch ValueError exactly when no row has a positive coercible
catch together with a species known to the table. -/
theorem C2_no_valid_catch_iff (d : DataFrame) (hcols : hasRequiredCols d) :
    ((calculate_mtl (.df d)).result = .error (.valueError noDataMsg) ↔
      ∀ r ∈ d.rows, ¬ contributes TROPHIC_LEVELS r) := by
  have hiff := foldl_total_eq_zero_iff TROPHIC_LEVELS d.rows ⟨0, 0, []⟩
    (by exact le_rfl)
  unfold calculate_mtl calculate_mtl_with finishMTL
  simp only [hcols, if_true]
  by_cases ht : (runRows TROPHIC_LEVELS d.rows).total_catch = 0
  · simp only [ht, if_true]
    constructor
    · intro _
      exact ((hiff.mp ht).2)
    · intro _
      trivial
  · simp only [ht, if_false]
    constructor
    · intro habs
      exact absurd habs (by simp)
    · intro hall
      exact absurd (hiff.mpr ⟨rfl, hall⟩) ht

/-- Witness for C2 at a concrete input whose single row has zero catch. -/
theorem C2_no_valid_catch_iff_witness :
    ((calculate_mtl (.df ⟨["species_name", "catch_kg"],
        [⟨"Atlantic cod", .num 0⟩]⟩)).result =
        .error (.valueError noDataMsg) ↔
      ∀ r ∈ ([⟨"Atlantic cod", .num 0⟩] : List Row),
        ¬ contributes TROPHIC_LEVELS r) :=
  C2_no_valid_catch_iff ⟨["species_name", "catch_kg"],
    [⟨"Atlantic cod", .num 0⟩]⟩ (by constructor <;> simp)

/-- C3: non-DataFrame input fails with the TypeError before any row is
read; a DataFrame missing a required column fails, whatever its rows,
with the distinct schema ValueError whose message names both required
columns. -/
theorem C3_structural_errors :
    calculate_mtl Input.nonDF = ⟨.error (.typeError typeErrMsg), []⟩ ∧
    (∀ cols rows, ¬ hasRequiredCols ⟨cols, rows⟩ →
      calculate_mtl (.df ⟨cols, rows⟩) =
        ⟨.error (.valueError schemaErrMsg), []⟩) ∧
    (∀ m1 m2, MTLError.typeError m1 ≠ MTLError.valueError m2) ∧
    (∃ a b c, schemaErrMsg = a ++ "species_name" ++ b ++ "catch_kg" ++ c) := by
  refine ⟨rfl, ?_, ?_, ?_⟩
  · intro cols rows h
    simp [calculate_mtl, calculate_mtl_with, h]
  · exact fun m1 m2 h => MTLError.noConfusion h
  · exact ⟨"DataFrame must contain columns \x7b", ", ", "\x7d", rfl⟩

/-- Witness for C3: the schema failure at a concrete column set, with
rows present that are never processed. -/
theorem C3_structural_errors_witness :
    calculate_mtl (.df ⟨["species", "weight"],
        [⟨"Atlantic cod", .num 100⟩]⟩) =
      ⟨.error (.valueError schemaErrMsg), []⟩ :=
  C3_structural_errors.2.1 ["species", "weight"] [⟨"Atlantic cod", .num 100⟩]
    (by simp [hasRequiredCols])

/-- C4: appending a row whose catch is invalid, zero or negative changes
nothing — same result value, same error, same warnings. -/
theorem C4_invalid_row_noop (cols : List String) (rows : List Row) (r : Row)
    (h : ¬ validCatch r) :
    calculate_mtl (.df ⟨cols, rows ++ [r]⟩) =
      calculate_mtl (.df ⟨cols, rows⟩) := by
  unfold calculate_mtl calculate_mtl_with
  by_cases hc : hasRequiredCols ⟨cols, rows ++ [r]⟩
  · have hc2 : hasRequiredCols ⟨cols, rows⟩ := hc
    simp only [hc, hc2, if_true]
    unfold runRows
    rw [List.foldl_append]
    simp [stepRow_of_not_validCatch _ _ _ h]
  · have hc2 : ¬ hasRequiredCols ⟨cols, rows⟩ := hc
    simp [hc, hc2]

/-- Witness for C4: a zero-catch unknown-species row appended to a
one-row input leaves the call unchanged. -/
theorem C4_invalid_row_noop_witness :
    calculate_mtl (.df ⟨["species_name", "catch_kg"],
        [⟨"Atlantic cod", .num 100⟩] ++ [⟨"Squid", .invalid⟩]⟩) =
      calculate_mtl (.df ⟨["species_name", "catch_kg"],
        [⟨"Atlantic cod", .num 100⟩]⟩) :=
  C4_invalid_row_noop ["species_name", "catch_kg"]
    [⟨"Atlantic cod", .num 100⟩] ⟨"Squid", .invalid⟩
    (by simp [validCatch, to_numeric])

/-- Appending a surviving unmatched-species row appends exactly its name
to the unmatched list. -/
theorem unmatched_append_missing (t : List (String × ℚ)) (rows : List Row)
    (r : Row) (q : ℚ) (hc : to_numeric r.catch_kg = some q) (hq : 0 < q)
    (hm : findTLIn t r.species_name = none) :
    unmatchedSpecies t (rows ++ [r]) =
      unmatchedSpecies t rows ++ [r.species_name] := by
  induction rows with
  | nil => simp [unmatchedSpecies, hc, not_le.mpr hq, hm]
  | cons x rest ih =>
    cases hx : to_numeric x.catch_kg with
    | none => simp [unmatchedSpecies, hx, ih]
    | some qx =>
      by_cases hqx : qx ≤ 0
      · simp [unmatchedSpecies, hx, hqx, ih]
      · cases hfx : findTLIn t x.species_name with
        | some tlx => simp [unmatchedSpecies, hx, hqx, hfx, ih]
        | none => simp [unmatchedSpecies, hx, hqx, hfx, ih]

/-- C5 counterexample: appending a row whose species is unknown but whose
catch is zero triggers no warning at all — the catch filter runs before
the species lookup, so the claim "appending an unmatched-species row
causes exactly one warning" fails at this input. -/
theorem C5_unmatched_row_cex :
    findTL "Unknown fish" = none ∧
    (calculate_mtl (.df ⟨["species_name", "catch_kg"],
        [⟨"Atlantic cod", .num 100⟩] ++ [⟨"Unknown fish", .num 0⟩]⟩)).warnings
      = [] := by
  constructor
  · simp [findTL, findTLIn, TROPHIC_LEVELS]
  · simp [calculate_mtl, calculate_mtl_with, hasRequiredCols, runRows,
      stepRow, to_numeric, findTLIn, TROPHIC_LEVELS, finishMTL, List.foldl]
    norm_num

/-- C5 (amended): appending a row whose species is not in the table AND
whose catch is positive and coercible leaves the result (value or error)
unchanged, and the call emits exactly one warning line — the fixed
literal followed by the deduplicated set of unmatched species names,
which includes the appended species. -/
theorem C5_unmatched_row_amended (d : DataFrame) (r : Row)
    (hcols : hasRequiredCols d) (hv : validCatch r)
    (hm : findTL r.species_name = none) :
    (calculate_mtl (.df ⟨d.columns, d.rows ++ [r]⟩)).result =
        (calculate_mtl (.df d)).result ∧
      (calculate_mtl (.df ⟨d.columns, d.rows ++ [r]⟩)).warnings =
        [warnMsg (unmatchedSpecies TROPHIC_LEVELS (d.rows ++ [r]))] ∧
      r.species_name ∈
        (unmatchedSpecies TROPHIC_LEVELS (d.rows ++ [r])).dedup ∧
      ∃ s, warnMsg (unmatchedSpecies TROPHIC_LEVELS (d.rows ++ [r])) =
        warnLiteral ++ s := by
  obtain ⟨q, hc, hq⟩ := (validCatch_iff r).mp hv
  have hm' : findTLIn TROPHIC_LEVELS r.species_name = none := hm
  have hcols2 : hasRequiredCols ⟨d.columns, d.rows ++ [r]⟩ := hcols
  have hrun : runRows TROPHIC_LEVELS (d.rows ++ [r]) =
      { runRows TROPHIC_LEVELS d.rows with
        missing_species :=
          (runRows TROPHIC_LEVELS d.rows).missing_species ++
            [r.species_name] } := by
    unfold runRows
    rw [List.foldl_append]
    rw [List.foldl_cons, List.foldl_nil,
      stepRow_of_missing TROPHIC_LEVELS _ r q hc hq hm']
  have hmiss : (runRows TROPHIC_LEVELS (d.rows ++ [r])).missing_species =
      unmatchedSpecies TROPHIC_LEVELS (d.rows ++ [r]) := by
    unfold runRows
    rw [foldl_missing]
    simp
  have hunm : unmatchedSpecies TROPHIC_LEVELS (d.rows ++ [r]) =
      unmatchedSpecies TROPHIC_LEVELS d.rows ++ [r.species_name] :=
    unmatched_append_missing TROPHIC_LEVELS d.rows r q hc hq hm'
  refine ⟨?_, ?_, ?_, ⟨_, rfl⟩⟩
  · unfold calculate_mtl calculate_mtl_with
    simp only [hcols, hcols2, if_true]
    rw [hrun]
    unfold finishMTL
    by_cases ht : (runRows TROPHIC_LEVELS d.rows).total_catch = 0 <;>
      simp [ht]
  · unfold calculate_mtl calculate_mtl_with
    simp only [hcols2, if_true]
    have hne2 :
        (runRows TROPHIC_LEVELS (d.rows ++ [r])).missing_species.isEmpty
          = false := by
      rw [hmiss, hunm]
      simp
    unfold finishMTL
    by_cases ht :
        (runRows TROPHIC_LEVELS (d.rows ++ [r])).total_catch = 0 <;>
      simp [ht, hne2, hmiss, hunm]
  · rw [hunm]
    exact List.mem_dedup.mpr (by simp)

/-- Witness for the amended C5 statement at a concrete input. -/
theorem C5_unmatched_row_amended_witness :
    ((calculate_mtl (.df ⟨["species_name", "catch_kg"],
        [⟨"Atlantic cod", .num 100⟩] ++ [⟨"Unknown fish", .num 50⟩]⟩)).result =
        (calculate_mtl (.df ⟨["species_name", "catch_kg"],
          [⟨"Atlantic cod", .num 100⟩]⟩)).result ∧
      (calculate_mtl (.df ⟨["species_name", "catch_kg"],
          [⟨"Atlantic cod", .num 100⟩] ++ [⟨"Unknown fish", .num 50⟩]⟩)).warnings =
        [warnMsg (unmatchedSpecies TROPHIC_LEVELS
          ([⟨"Atlantic cod", .num 100⟩] ++ [⟨"Unknown fish", .num 50⟩]))] ∧
      "Unknown fish" ∈
        (unmatchedSpecies TROPHIC_LEVELS
          ([⟨"Atlantic cod", .num 100⟩] ++ [⟨"Unknown fish", .num 50⟩])).dedup ∧
      ∃ s, warnMsg (unmatchedSpecies TROPHIC_LEVELS
          ([⟨"Atlantic cod", .num 100⟩] ++ [⟨"Unknown fish", .num 50⟩])) =
        warnLiteral ++ s) :=
  C5_unmatched_row_amended
    ⟨["species_name", "catch_kg"], [⟨"Atlantic cod", .num 100⟩]⟩
    ⟨"Unknown fish", .num 50⟩
    (by constructor <;> simp)
    (by norm_num [validCatch, to_numeric])
    (by simp [findTL, findTLIn, TROPHIC_LEVELS])

/-- C6: every call yields either a value or one of the three specified
raises — the TypeError for non-tabular input, the schema ValueError, or
the no-valid-catch ValueError; no other outcome exists for any cell
contents. -/
theorem C6_total_outcomes (input : Input) :
    (∃ q, (calculate_mtl input).result = .ok q) ∨
      (calculate_mtl input).result = .error (.typeError typeErrMsg) ∨
      (calculate_mtl input).result = .error (.valueError schemaErrMsg) ∨
      (calculate_mtl input).result = .error (.valueError noDataMsg) := by
  cases input with
  | nonDF => exact Or.inr (Or.inl rfl)
  | df d =>
    by_cases hc : hasRequiredCols d
    · unfold calculate_mtl calculate_mtl_with finishMTL
      simp only [hc, if_true]
      by_cases ht : (runRows TROPHIC_LEVELS d.rows).total_catch = 0
      · simp [ht]
      · refine Or.inl ⟨(runRows TROPHIC_LEVELS d.rows).weighted_sum /
          (runRows TROPHIC_LEVELS d.rows).total_catch, ?_⟩
        simp [ht]
    · refine Or.inr (Or.inr (Or.inl ?_))
      simp [calculate_mtl, calculate_mtl_with, hc]

/-- Coercion `pd.to_numeric(..., errors="coerce")` applied to one cell: a
coercible value stays that number, anything else becomes NaN. -/
def coerce_cell (c : Cell) : Cell :=
  match to_numeric c with
  | some q => .num q
  | none => .invalid

/-- The in-place column assignment
`catch_df["catch_kg"] = pd.to_numeric(catch_df["catch_kg"], errors="coerce")`,
applied to the frame it targets. -/
def coerce_catch_col (d : DataFrame) : DataFrame :=
  { d with rows := d.rows.map (fun r => { r with catch_kg := coerce_cell r.catch_kg }) }

/-- The caller-visible process state around a call: the module-level
table, the input object of the caller and the log sink. -/
structure ProcState where
  trophic_levels : List (String × ℚ)
  caller_input : Input
  log : List String

/-- Function `calculate_mtl` with its effects explicit. The source rebinds
`catch_df` to a copy (`catch_df = catch_df.copy()`) and performs the
column coercion on that copy only; it reads but never writes
`TROPHIC_LEVELS`, and appends at most one warning line to the log. -/
def calculate_mtl_proc (s : ProcState) : Except MTLError ℚ × ProcState :=
  match s.caller_input with
  | .nonDF => (.error (.typeError typeErrMsg), s)
  | .df d0 =>
    if hasRequiredCols d0 then
      let catch_df := coerce_catch_col d0
      let st := runRows s.trophic_levels catch_df.rows
      let s1 := if st.missing_species.isEmpty then s
        else { s with log := s.log ++ [warnMsg st.missing_species] }
      if st.total_catch = 0 then (.error (.valueError noDataMsg), s1)
      else (.ok (st.weighted_sum / st.total_catch), s1)
    else (.error (.valueError schemaErrMsg), s)

/-- The coercion pass does not change what the loop computes: the loop
re-reads each cell through the same coercion. -/
theorem runRows_coerce (t : List (String × ℚ)) (d : DataFrame) :
    runRows t (coerce_catch_col d).rows = runRows t d.rows := by
  unfold runRows coerce_catch_col
  simp only []
  rw [List.foldl_map]
  have hstep : ∀ (st : LoopState) (r : Row),
      stepRow t st { r with catch_kg := coerce_cell r.catch_kg } =
        stepRow t st r := by
    intro st r
    rcases r with ⟨name, cell⟩
    cases cell <;> rfl
  simp only [hstep]

/-- C8: a call never mutates the reference table or the input of the caller;
its only effect is appending at most one warning line to the log, and
its result is a pure function of (table, input). -/
theorem C8_frame_effects (s : ProcState) :
    (calculate_mtl_proc s).2.trophic_levels = s.trophic_levels ∧
      (calculate_mtl_proc s).2.caller_input = s.caller_input ∧
      (∃ w, (calculate_mtl_proc s).2.log = s.log ++ w ∧
        (w = [] ∨ ∃ m, w = [warnMsg m])) ∧
      (calculate_mtl_proc s).1 =
        (calculate_mtl_with s.trophic_levels s.caller_input).result := by
  obtain ⟨t, input, log⟩ := s
  cases input with
  | nonDF => exact ⟨rfl, rfl, ⟨[], by simp [calculate_mtl_proc], Or.inl rfl⟩, rfl⟩
  | df d0 =>
    by_cases hc : hasRequiredCols d0
    · refine ⟨?_, ?_, ?_, ?_⟩
      · unfold calculate_mtl_proc
        simp only [hc, if_true, runRows_coerce]
        split <;> split <;> rfl
      · unfold calculate_mtl_proc
        simp only [hc, if_true, runRows_coerce]
        split <;> split <;> rfl
      · unfold calculate_mtl_proc
        simp only [hc, if_true, runRows_coerce]
        by_cases hm : (runRows t d0.rows).missing_species.isEmpty
        · refine ⟨[], ?_, Or.inl rfl⟩
          simp only [hm]
          split <;> simp
        · refine ⟨[warnMsg (runRows t d0.rows).missing_species], ?_,
            Or.inr ⟨_, rfl⟩⟩
          simp only [hm]
          split <;> simp
      · unfold calculate_mtl_proc calculate_mtl_with finishMTL
        simp only [hc, if_true, runRows_coerce]
        by_cases ht : (runRows t d0.rows).total_catch = 0 <;> simp [ht]
    · refine ⟨?_, ?_, ⟨[], ?_, Or.inl rfl⟩, ?_⟩ <;>
        simp [calculate_mtl_proc, calculate_mtl_with, hc]

/-- C9: every value the function returns lies between the least and
greatest trophic levels of the table, [2.5, 4.4], hence inside the
[1.0, 5.0] trophic-level range. -/
theorem C9_result_bounds (input : Input) (q : ℚ)
    (h : (calculate_mtl input).result = .ok q) :
    (5/2 ≤ q ∧ q ≤ 22/5) ∧ (1 ≤ q ∧ q ≤ 5) := by
  obtain ⟨d, -, -, ht, hq⟩ := calc_ok_inv TROPHIC_LEVELS input q h
  have hb := foldl_bounds TROPHIC_LEVELS (5/2) (22/5) trophic_levels_bounds
    d.rows ⟨0, 0, []⟩ (by refine ⟨le_rfl, ?_, ?_⟩ <;> simp)
  obtain ⟨h0, hlo, hhi⟩ := hb
  have hpos : 0 < (runRows TROPHIC_LEVELS d.rows).total_catch :=
    lt_of_le_of_ne h0 (Ne.symm ht)
  have k1 : 5/2 ≤ q := by
    rw [hq, le_div_iff₀ hpos]
    exact hlo
  have k2 : q ≤ 22/5 := by
    rw [hq, div_le_iff₀ hpos]
    exact hhi
  exact ⟨⟨k1, k2⟩, by linarith, by linarith⟩

/-- Witness for C9 at the concrete value 16/5 returned on a one-row
input. -/
theorem C9_result_bounds_witness :
    (5/2 ≤ (16/5 : ℚ) ∧ (16/5 : ℚ) ≤ 22/5) ∧
      (1 ≤ (16/5 : ℚ) ∧ (16/5 : ℚ) ≤ 5) :=
  C9_result_bounds
    (.df ⟨["species_name", "catch_kg"], [⟨"Mackerel", .num 10⟩]⟩) (16/5)
    (by
      simp [calculate_mtl, calculate_mtl_with, hasRequiredCols, runRows,
        stepRow, to_numeric, findTLIn, TROPHIC_LEVELS, finishMTL,
        List.foldl]
      norm_num)

/-- Rows that fail the catch filter are never recorded as unmatched. -/
theorem unmatched_nil_of_filtered (t : List (String × ℚ)) (rows : List Row)
    (h : ∀ r ∈ rows, findTLIn t r.species_name = none → ¬ validCatch r) :
    unmatchedSpecies t rows = [] := by
  induction rows with
  | nil => rfl
  | cons r rest ih =>
    have hrest := ih (fun x hx => h x (by simp [hx]))
    cases hc : to_numeric r.catch_kg with
    | none => simp [unmatchedSpecies, hc, hrest]
    | some q =>
      by_cases hq : q ≤ 0
      · simp [unmatchedSpecies, hc, hq, hrest]
      · cases hf : findTLIn t r.species_name with
        | some tl => simp [unmatchedSpecies, hc, hq, hf, hrest]
        | none =>
          exact absurd
            (show validCatch r by
              simp only [validCatch, hc]
              exact lt_of_not_le hq)
            (h r (by simp) hf)

/-- C10: the catch filter runs before the species lookup, so a
table-missing row with invalid or non-positive catch is never recorded:
when every table-missing row is filtered out, the missing list stays
empty and the call emits no warning. -/
theorem C10_filter_before_lookup (d : DataFrame) (hcols : hasRequiredCols d)
    (h : ∀ r ∈ d.rows, findTL r.species_name = none → ¬ validCatch r) :
    (runRows TROPHIC_LEVELS d.rows).missing_species = [] ∧
      (calculate_mtl (.df d)).warnings = [] := by
  have hun : unmatchedSpecies TROPHIC_LEVELS d.rows = [] :=
    unmatched_nil_of_filtered TROPHIC_LEVELS d.rows h
  have hmiss : (runRows TROPHIC_LEVELS d.rows).missing_species = [] := by
    unfold runRows
    rw [foldl_missing]
    simp [hun]
  refine ⟨hmiss, ?_⟩
  unfold calculate_mtl calculate_mtl_with finishMTL
  simp only [hcols, if_true]
  by_cases ht : (runRows TROPHIC_LEVELS d.rows).total_catch = 0 <;>
    simp [ht, hmiss]

/-- Witness for C10: an unknown species with zero catch and an unknown
species with uncoercible catch produce no missing-species record and no
warning. -/
theorem C10_filter_before_lookup_witness :
    (runRows TROPHIC_LEVELS
        [⟨"Atlantic cod", .num 100⟩, ⟨"Unknown fish", .num 0⟩,
          ⟨"Ghost fish", .invalid⟩]).missing_species = [] ∧
      (calculate_mtl (.df ⟨["species_name", "catch_kg"],
        [⟨"Atlantic cod", .num 100⟩, ⟨"Unknown fish", .num 0⟩,
          ⟨"Ghost fish", .invalid⟩]⟩)).warnings = [] :=
  C10_filter_before_lookup
    ⟨["species_name", "catch_kg"],
      [⟨"Atlantic cod", .num 100⟩, ⟨"Unknown fish", .num 0⟩,
        ⟨"Ghost fish", .invalid⟩]⟩
    (by constructor <;> simp)
    (by
      intro r hr
      fin_cases hr
      · intro hnone
        exact absurd hnone (by simp [findTL, findTLIn, TROPHIC_LEVELS])
      · intro _
        norm_num [validCatch, to_numeric]
      · intro _
        simp [validCatch, to_numeric])
